import Mathlib

/-!
# Verification of `hll_server_status`

A shallow embedding of the core logic of the `hll_server_status` repository
(files `cli.py`, `models.py`, `types.py`), together with theorems settling
the specification's claims about it.

Machine integers are modelled as `Int`/`Nat`; Python floats in the one place
they occur (the scheduler's sleep computation) are modelled as exact
rationals with round-half-to-even; fallible Python code is modelled with
`Except`/`Option`.
-/

namespace HllServerStatus

/-! ## Modelled constants

The module `hll_server_status/constants.py` is imported by the sources but is
not part of the available source tree, so its values are modelled from the
specification. -/

/-- Modelled from the spec: `constants.BETWEEN_MATCHES_MAP_NAME`, the
"between-matches sentinel" map value reported while no round is active.  The
`models.py`/`types.py` validators map any raw name matching `Untitled_\d+` to
this sentinel. -/
def BETWEEN_MATCHES_MAP_NAME : String := "Untitled"

/-- Modelled from the spec: `constants.ALL_MAPS`, the lookup table of known
raw map-name tokens ("the control-API's canonical token"); the real table is
larger, this is a representative finite table (the source docstring gives
`foy_offensive_ger` as an example). -/
def ALL_MAPS : List String :=
  ["foy_warfare", "foy_offensive_ger", "foy_offensive_us",
   "stmereeglise_warfare", "carentan_warfare", "Untitled"]

/-- Modelled from the spec: `constants.LONG_HUMAN_MAP_NAMES`, the lookup
table deriving a human-readable display name from a raw map name. -/
def LONG_HUMAN_MAP_NAMES : List (String × String) :=
  [("foy_warfare", "Foy"), ("foy_offensive_ger", "Foy Offensive (GER)"),
   ("foy_offensive_us", "Foy Offensive (US)"),
   ("stmereeglise_warfare", "St. Mere Eglise"),
   ("carentan_warfare", "Carentan"), ("Untitled", "Between Matches")]

/-- Modelled from the spec: `constants.MAP_RESTART_SUFFIX`; its value is
forced to `"_RESTART"` by `types.py`, which strips it with
`v.replace("_RESTART", "")`. -/
def MAP_RESTART_SUFFIX : String := "_RESTART"

/-- Modelled from the spec: `constants.NONE_MESSAGE_ID`, the "no message
yet" sentinel message handle.  It must be falsy in Python (`handle_webhook`
creates instead of edits exactly when `message_id` is falsy), so it is `0`. -/
def NONE_MESSAGE_ID : Int := 0

/-- Python dict / `tomlkit` container lookup (`d.get(k)` / `k in d`), over an
insertion-ordered association list. -/
def dict_get {β : Type} (l : List (String × β)) (key : String) : Option β :=
  match l with
  | [] => none
  | (k, v) :: rest => if k = key then some v else dict_get rest key

/-- The shape of `constants.MESSAGE_ID_FORMAT` (`models.MessageIDFormat`):
a table name and the required section-key fields. -/
structure MessageIDFormat where
  table_name : String
  fields : List String
deriving Repr, DecidableEq

/-- Modelled from the spec: `constants.MESSAGE_ID_FORMAT`.  The field set is
forced by `cli.py`'s `main`, which reads `message_ids[table_name][key]` for
the keys `header`, `gamestate`, `map_rotation_color`, `map_rotation_embed`
after validation. -/
def MESSAGE_ID_FORMAT : MessageIDFormat :=
  { table_name := "message_ids",
    fields := ["header", "gamestate", "map_rotation_color", "map_rotation_embed"] }

/-! ## Scheduler sleep computation (`cli.update_hook_for_section`)

```python
end_time = time.perf_counter_ns()
elapsed_time_ns = end_time - start_time
factor = 1_000_000_000
refresh_delay: int = config.discord.time_between_refreshes
refresh_delay_ns = refresh_delay * factor
time_to_sleep = round((refresh_delay_ns - elapsed_time_ns) / factor, ndigits=0)
...
await asyncio.sleep(time_to_sleep)
```
-/

/-- Python's `round` with `ndigits=0` on an exact value: round half to even. -/
def pyRoundHalfEven (q : ℚ) : ℤ :=
  if q - (⌊q⌋ : ℚ) < 1/2 then ⌊q⌋
  else if 1/2 < q - (⌊q⌋ : ℚ) then ⌊q⌋ + 1
  else if ⌊q⌋ % 2 = 0 then ⌊q⌋ else ⌊q⌋ + 1

/-- The sleep duration computed at the bottom of the scheduler loop in
`cli.update_hook_for_section`, as a function of the configured refresh
interval (seconds) and the elapsed processing time (nanoseconds).  The
division is modelled exactly. -/
def time_to_sleep (refresh_delay : ℤ) (elapsed_time_ns : ℤ) : ℤ :=
  let factor : ℤ := 1000000000
  let refresh_delay_ns := refresh_delay * factor
  pyRoundHalfEven (((refresh_delay_ns - elapsed_time_ns : ℤ) : ℚ) / (factor : ℚ))

/-- `asyncio.sleep` returns immediately for non-positive delays: the
effective sleep is the computed value clamped below at zero. -/
def effective_sleep (refresh_delay : ℤ) (elapsed_time_ns : ℤ) : ℤ :=
  max 0 (time_to_sleep refresh_delay elapsed_time_ns)

/-! ## Map model and rotation inference (`cli.py`) -/

/-- `models.Map` / `types.Map` as used by the rotation code: only the
validated `raw_name` is consulted. -/
structure Map where
  raw_name : String
deriving Repr, DecidableEq

/-- `cli.guess_current_map_rotation_positions`: estimate the index(es) of
the current map in the rotation based off current/next map. -/
def guess_current_map_rotation_positions
    (rotation : List Map) (current_map : Map) (next_map : Map) : List Nat :=
  -- Between rounds
  if current_map.raw_name = BETWEEN_MATCHES_MAP_NAME then []
  else
    let raw_names := rotation.map (·.raw_name)
    -- the current map is only in once then we know exactly where we are
    if raw_names.count current_map.raw_name = 1 then
      [raw_names.indexOf current_map.raw_name]
    else
      -- the current map is in more than once, we must estimate
      ((List.range raw_names.length).filter
          (fun idx => raw_names.getD idx "" = next_map.raw_name)).map
        (fun idx =>
          -- have to account for wrapping from the end to the start
          if idx = 0 then raw_names.length - 1 else idx - 1)

/-- `cli.guess_next_map_rotation_positions`: advance each current position
by one, wrapping `len-1 → 0`. -/
def guess_next_map_rotation_positions
    (current_map_positions : List Nat) (rotation : List Map) : List Nat :=
  let rotation_length := rotation.length
  current_map_positions.map
    (fun position =>
      if position = rotation_length - 1 then 0 else position + 1)

/-! ## ApiClient (`cli.login`, `cli.with_login`, `cli.with_retry`,
`cli.get_api_result`)

The network is modelled as an environment assigning to each attempt number
the outcome of its exchanges. -/

/-- The Python exceptions relevant to the embedded code. -/
inductive PyExc where
  | clientResponseError (status : Nat)  -- aiohttp.ClientResponseError (raise_for_status)
  | valueError                          -- ValueError
  | indexError                          -- IndexError
  | typeError                           -- TypeError (e.g. subscripting None)
  | keyError                            -- KeyError (missing dict key)
  | otherError                          -- anything else, e.g. a connection-level aiohttp error
deriving Repr, DecidableEq

/-- Outcome of the network exchange inside one `get_api_result` call
(the POST, the status check, and the `json["result"]` extraction), as driven
by the environment. -/
inductive ApiOutcome (V : Type) where
  | ok (v : V)                 -- HTTP 200 with a non-null `result`
  | httpStatus (status : Nat)  -- non-200 status: `response.raise_for_status()` raises
  | nullResult                 -- HTTP 200 but `json["result"]` is None: raises ValueError
  | indexErr                   -- an IndexError raised while handling the response
  | transportError             -- connection-level error raised by `session.post`
deriving Repr, DecidableEq

/-- Outcome of one `cli.login` exchange, driven by the environment. -/
inductive LoginOutcome where
  | ok (token : String)        -- HTTP 200 with a sessionid cookie
  | noCookie                   -- HTTP 200 but no sessionid cookie: returns None
  | httpStatus (status : Nat)  -- non-200: raise_for_status raises
  | emptyCredentials           -- username/password falsy: raises ValueError
  | transportError             -- connection-level error raised by `session.post`
deriving Repr, DecidableEq

/-- The environment for one retry attempt: what `login` would yield (consulted
only when no sessionid cookie is stored) and what the API exchange yields. -/
structure AttemptEnv (V : Type) where
  login : LoginOutcome
  api : ApiOutcome V

/-- The body of `cli.get_api_result` after a successful login check: perform
the POST, raise on a non-200 status, extract `json["result"]`, raise
`ValueError` on a `None` result, otherwise return it. -/
def run_get_api_result {V : Type} (o : ApiOutcome V) : Except PyExc V :=
  match o with
  | .ok v => .ok v
  | .httpStatus s => .error (.clientResponseError s)
  | .nullResult => .error .valueError
  | .indexErr => .error .indexError
  | .transportError => .error .otherError

/-- `cli.login`: raises ValueError on empty credentials, raises for a
non-success status, otherwise returns the (possibly absent) sessionid
cookie. -/
def run_login (o : LoginOutcome) : Except PyExc (Option String) :=
  match o with
  | .ok token => .ok (some token)
  | .noCookie => .ok none
  | .httpStatus s => .error (.clientResponseError s)
  | .emptyCredentials => .error .valueError
  | .transportError => .error .otherError

/-- One attempt of the function wrapped by `with_retry`, i.e. `with_login`
around the body of `get_api_result` (`cli.with_login.inner`): when no truthy
`sessionid` cookie is stored, first log in and store the returned cookie
(which may itself be `None`); then run the API exchange.  The state is the
stored cookie; note that no code path here removes a stored cookie. -/
def with_login_attempt {V : Type} (cookies : Option String) (env : AttemptEnv V) :
    Option String × Except PyExc V :=
  match cookies with
  | some tok => (some tok, run_get_api_result env.api)
  | none =>
    match run_login env.login with
    | .error e => (none, .error e)
    | .ok stored => (stored, run_get_api_result env.api)

/-- The exception classes caught (and hence retried) by `cli.with_retry`:
`aiohttp.ClientResponseError`, `IndexError`, `ValueError`. -/
def with_retry_catches : PyExc → Bool
  | .clientResponseError _ => true
  | .indexError => true
  | .valueError => true
  | _ => false

/-- An API outcome whose exception `with_retry` would catch. -/
def ApiOutcome.retryableFailure {V : Type} : ApiOutcome V → Bool
  | .httpStatus _ => true
  | .nullResult => true
  | .indexErr => true
  | _ => false

/-- The `for num in range(1, retries + 1)` loop of `cli.with_retry.inner`:
attempt the wrapped call; return its value on success; on a caught exception
log and continue; let any other exception propagate; after the last attempt
fall off the loop and return `None`. -/
def with_retry_go {V : Type} (env : ℕ → AttemptEnv V) (cookies : Option String)
    (num : ℕ) : ℕ → Option String × Except PyExc (Option V)
  | 0 => (cookies, .ok none)
  | fuel + 1 =>
    match with_login_attempt cookies (env num) with
    | (cookies1, .ok v) => (cookies1, .ok (some v))
    | (cookies1, .error e) =>
      if with_retry_catches e then with_retry_go env cookies1 (num + 1) fuel
      else (cookies1, .error e)

/-- `cli.get_api_result` as decorated by `@with_retry @with_login`: up to 5
attempts starting at attempt number 1, threading the stored cookie. -/
def get_api_result {V : Type} (env : ℕ → AttemptEnv V) (cookies : Option String) :
    Option String × Except PyExc (Option V) :=
  with_retry_go env cookies 1 5

/-! ## Header content builder and the scheduler cycle
(`cli.parse_server_name`, `cli.build_header`, `cli.handle_webhook`,
`cli.update_hook_for_section`) -/

/-- The payload of `get_status`. -/
structure ServerName where
  name : String
  short_name : String
deriving Repr, DecidableEq

/-- `cli.parse_server_name` applied to the value returned by the decorated
`get_api_result`: subscripting a `None` result (the value produced when the
retry budget is exhausted) raises `TypeError`. -/
def parse_server_name (result : Option ServerName) : Except PyExc ServerName :=
  match result with
  | none => .error .typeError
  | some r => .ok ⟨r.name, r.short_name⟩

/-- `cli.build_header`, for a configuration with no optional header embeds:
one `get_api_result` call for `get_status`, whose value is fed to
`parse_server_name`; `build_header` itself contains no exception handler, so
any exception raised propagates to the caller. -/
def build_header (cookies : Option String)
    (env : ℕ → AttemptEnv ServerName) :
    Option String × Except PyExc ServerName :=
  match get_api_result env cookies with
  | (cookies1, .error e) => (cookies1, .error e)
  | (cookies1, .ok res) =>
    match parse_server_name res with
    | .error e => (cookies1, .error e)
    | .ok sn => (cookies1, .ok sn)

/-- The calls `handle_webhook` makes against the messaging endpoint. -/
inductive WebhookAction where
  | editMessage (message_id : Int)  -- webhook.edit_message(message_id=...)
  | send                            -- webhook.send(...)
deriving Repr, DecidableEq

/-- Behaviour of the messaging endpoint for the one call a
`handle_webhook` invocation performs. -/
inductive WebhookBehavior where
  | ok (new_id : Int)  -- the call returns a message whose id is `new_id`
  | notFound           -- discord.errors.NotFound
  | rateLimited        -- discord.errors.RateLimited
deriving Repr, DecidableEq

/-- `cli.handle_webhook`: with a truthy `message_id` attempt an edit,
otherwise a send; on success return the new message id; on `NotFound` log
and return `None` (no other call is attempted in this invocation); on
`RateLimited` log and return `message_id` unchanged.  The first component
records the endpoint calls performed. -/
def handle_webhook (message_id : Option Int) (wh : WebhookBehavior) :
    List WebhookAction × Option Int :=
  let func : WebhookAction :=
    match message_id with
    | some m => if m ≠ 0 then .editMessage m else .send
    | none => .send
  match wh with
  | .ok new_id => ([func], some new_id)
  | .notFound => ([func], none)
  | .rateLimited => ([func], message_id)

/-- One iteration of the `while True` loop of `cli.update_hook_for_section`
with `build_header` as content builder: build the content, publish it via
`handle_webhook`, record the returned message id.  The loop body contains no
exception handler, so an exception raised by the content builder escapes the
iteration (and hence terminates the owning task). -/
def update_hook_cycle (cookies : Option String) (message_id : Option Int)
    (env : ℕ → AttemptEnv ServerName) (wh : WebhookBehavior) :
    Except PyExc (Option String × Option Int) :=
  match build_header cookies env with
  | (_, .error e) => .error e
  | (cookies1, .ok _) => .ok (cookies1, (handle_webhook message_id wh).2)

/-! ## Map validators (`models.Map`, `types.Map`) -/

/-- `re.match(r"Untitled_\d+", v)`: the string starts with `Untitled_`
followed by at least one (ASCII) digit. -/
def untitledMatch (v : String) : Bool :=
  match v.data with
  | 'U' :: 'n' :: 't' :: 'i' :: 't' :: 'l' :: 'e' :: 'd' :: '_' :: c :: _ => c.isDigit
  | _ => false

/-- `models.Map.must_be_valid_map_name`, the validator of the `Map` class
that `cli.py` imports: a raw name matching `Untitled_\d+` becomes the
between-matches sentinel; any raw name not in `ALL_MAPS` raises
`ValueError("Invalid Map Name")`. -/
def models_must_be_valid_map_name (v : String) : Except PyExc String :=
  if untitledMatch v then .ok BETWEEN_MATCHES_MAP_NAME
  else if v ∈ ALL_MAPS then .ok v
  else .error .valueError

/-- `models.Map.name`: `constants.LONG_HUMAN_MAP_NAMES[self.raw_name]`,
raising `KeyError` when absent. -/
def models_map_name (raw_name : String) : Except PyExc String :=
  match dict_get LONG_HUMAN_MAP_NAMES raw_name with
  | some n => .ok n
  | none => .error .keyError

/-- Python `str.replace(pat, "")` for a non-empty pattern: remove every
(leftmost-first) occurrence of `pat`. -/
def pyRemoveAll (pat : List Char) (s : List Char) : List Char :=
  match s with
  | [] => []
  | c :: rest =>
    if h : pat ≠ [] ∧ pat.isPrefixOf (c :: rest) then
      pyRemoveAll pat ((c :: rest).drop pat.length)
    else
      c :: pyRemoveAll pat rest
termination_by s.length
decreasing_by
  · simp only [List.length_drop, List.length_cons]
    have : 1 ≤ pat.length := List.length_pos.mpr h.1
    omega
  · simp

/-- Python `v.split("_", 1)[0]`: the longest prefix not containing `_`. -/
def py_split_first_segment (v : String) : String :=
  ⟨v.data.takeWhile (fun c => c ≠ '_')⟩

/-- `types.Map.must_be_valid_map_name`, the validator of the rewritten `Map`
class in `types.py`: `Untitled_\d+` becomes the sentinel; a `_RESTART`
suffix of a known map is stripped; a raw name still unknown falls back to
its first underscore-separated segment, or `"Unknown Map"` when empty.  No
path raises. -/
def types_must_be_valid_map_name (v : String) : String :=
  if untitledMatch v then BETWEEN_MATCHES_MAP_NAME
  else
    let restart_maps := ALL_MAPS.map (fun map_name => map_name ++ MAP_RESTART_SUFFIX)
    let v1 := if v ∈ restart_maps then ⟨pyRemoveAll "_RESTART".data v.data⟩ else v
    if v1 ∈ ALL_MAPS then v1
    else
      let v2 := py_split_first_segment v1
      if v2 = "" then "Unknown Map" else v2

/-- `types.Map.name`: the `LONG_HUMAN_MAP_NAMES` entry, falling back to the
raw name itself on `KeyError`. -/
def types_map_name (raw_name : String) : String :=
  match dict_get LONG_HUMAN_MAP_NAMES raw_name with
  | some n => n
  | none => raw_name

/-! ## Gamestate parsing (`cli.parse_gamestate`) -/

/-- The raw `/api/get_gamestate` result (API-delivered fields only). -/
structure RawGameState where
  num_allied_players : Int
  num_axis_players : Int
  allied_score : Int
  axis_score : Int
  raw_time_remaining : String
  current_map : String
  next_map : String
deriving Repr, DecidableEq

/-- The validated `models.GameState`; `time_remaining` is kept as the total
seconds of the `timedelta`. -/
structure GameState where
  num_allied_players : Int
  num_axis_players : Int
  allied_score : Int
  axis_score : Int
  raw_time_remaining : String
  time_remaining_seconds : ℕ
  current_map : String
  next_map : String
deriving Repr, DecidableEq

/-- `re.match(r"(\d{1}):(\d{2}):(\d{2})", s)`: anchored at the start of the
string only — it inspects the first seven characters and ignores the rest.
Returns the matched (hours, minutes, seconds) groups.  (Python `\d` also
covers non-ASCII Unicode digits; digits are modelled as ASCII here.) -/
def match_time_remaining (s : String) : Option (ℕ × ℕ × ℕ) :=
  match s.data with
  | h :: c1 :: m1 :: m2 :: c2 :: s1 :: s2 :: _ =>
    if h.isDigit ∧ c1 = ':' ∧ m1.isDigit ∧ m2.isDigit ∧ c2 = ':' ∧
        s1.isDigit ∧ s2.isDigit then
      some (h.toNat - '0'.toNat,
        10 * (m1.toNat - '0'.toNat) + (m2.toNat - '0'.toNat),
        10 * (s1.toNat - '0'.toNat) + (s2.toNat - '0'.toNat))
    else none
  | _ => none

/-- A full match of `H:MM:SS` with nothing else: the reading of the format
rule stated by the spec for claim C8 (the code's `re.match` anchors only at
the start). -/
def full_match_hmmss (s : String) : Bool :=
  match s.data with
  | [h, c1, m1, m2, c2, s1, s2] =>
    h.isDigit && c1 == ':' && m1.isDigit && m2.isDigit && c2 == ':' &&
      s1.isDigit && s2.isDigit
  | _ => false

/-- `cli.parse_gamestate`: reject when the time-remaining regex does not
match (ValueError), then validate `current_map` and `next_map` through
`models.Map`, re-raising their `ValueError`; on success assemble the
`GameState` with the parsed `timedelta`. -/
def parse_gamestate (result : RawGameState) : Except PyExc GameState :=
  match match_time_remaining result.raw_time_remaining with
  | none => .error .valueError
  | some (hours, minutes, seconds) =>
    match models_must_be_valid_map_name result.current_map with
    | .error e => .error e
    | .ok cur =>
      match models_must_be_valid_map_name result.next_map with
      | .error e => .error e
      | .ok next =>
        .ok { num_allied_players := result.num_allied_players,
              num_axis_players := result.num_axis_players,
              allied_score := result.allied_score,
              axis_score := result.axis_score,
              raw_time_remaining := result.raw_time_remaining,
              time_remaining_seconds := 3600 * hours + 60 * minutes + seconds,
              current_map := cur,
              next_map := next }

/-! ## Message-ID document validation (`cli.validate_message_ids_format`)

TOML tables are modelled as insertion-ordered association lists; `tomlkit`'s
`table.add` appends, and `key in table` checks key presence. -/

abbrev MessageIdTable := List (String × Int)

abbrev MessageIdDocument := List (String × MessageIdTable)

/-- The log lines `validate_message_ids_format` can emit. -/
inductive ValidationLog where
  | warnNoDocument                    -- "No message IDs passed, creating a new TOML document"
  | warnMissingTable (table_name : String)  -- "table_name=... missing, creating a new table"
  | warnMissingField (field : String)       -- "Creating missing field=... with default_value=..."
  | errUnknownField (field : String)        -- "Unknown field ... in saved message IDs"
deriving Repr, DecidableEq

/-- The `for field in format["fields"]` loop: append each missing field with
the default value (warning once), and log an error for any field absent from
the constant `MESSAGE_ID_FORMAT` field set.  Appends are visible to the
later membership checks, as they are on the mutated `tomlkit` table. -/
def validate_fields (table : MessageIdTable) (fields : List String)
    (constant_fields : List String) (default_value : Int) :
    MessageIdTable × List ValidationLog :=
  match fields with
  | [] => (table, [])
  | f :: rest =>
    let table1 :=
      if (dict_get table f).isSome then table else table ++ [(f, default_value)]
    let logs1 : List ValidationLog :=
      if (dict_get table f).isSome then [] else [.warnMissingField f]
    let logs2 : List ValidationLog :=
      if f ∈ constant_fields then [] else [.errUnknownField f]
    let rest_result := validate_fields table1 rest constant_fields default_value
    (rest_result.1, logs1 ++ logs2 ++ rest_result.2)

/-- Replace the table stored under `name` (modelling in-place mutation of
the `tomlkit` table object held by the document). -/
def set_table : MessageIdDocument → String → MessageIdTable → MessageIdDocument
  | [], _, _ => []
  | (k, v) :: rest, name, t =>
    (if k = name then (k, t) else (k, v)) :: set_table rest name t

/-- `cli.validate_message_ids_format`: start from a fresh document when none
was passed (with a warning), create the section table when missing (with a
warning), then default every missing required field. -/
def validate_message_ids_format (message_ids : Option MessageIdDocument)
    (format : MessageIDFormat := MESSAGE_ID_FORMAT)
    (default_value : Int := NONE_MESSAGE_ID) :
    MessageIdDocument × List ValidationLog :=
  let doc : MessageIdDocument := message_ids.getD []
  let logs0 : List ValidationLog :=
    match message_ids with
    | none => [ValidationLog.warnNoDocument]
    | some _ => []
  let table : MessageIdTable := (dict_get doc format.table_name).getD []
  let doc1 : MessageIdDocument :=
    match dict_get doc format.table_name with
    | some _ => doc
    | none => doc ++ [(format.table_name, [])]
  let logs1 : List ValidationLog :=
    match dict_get doc format.table_name with
    | some _ => []
    | none => [ValidationLog.warnMissingTable format.table_name]
  let field_result :=
    validate_fields table format.fields MESSAGE_ID_FORMAT.fields default_value
  (set_table doc1 format.table_name field_result.1, logs0 ++ logs1 ++ field_result.2)

/-- The table the input document holds under the format's table name (empty
for a missing document or missing table): the baseline against which
"missing key" is judged. -/
def input_table (message_ids : Option MessageIdDocument)
    (format : MessageIDFormat) : MessageIdTable :=
  (dict_get (message_ids.getD []) format.table_name).getD []

/-! ## Theorems -/

lemma pyRoundHalfEven_nonpos {q : ℚ} (hq : q ≤ 0) : pyRoundHalfEven q ≤ 0 := by
  have hfl : ⌊q⌋ ≤ 0 := Int.floor_nonpos hq
  unfold pyRoundHalfEven
  split_ifs with h1 h2 h3
  · exact hfl
  · have h0 : (0 : ℚ) < q - (⌊q⌋ : ℚ) := by linarith [not_lt.mp h1]
    have : (⌊q⌋ : ℚ) < 0 := by linarith
    have : ⌊q⌋ < 0 := by exact_mod_cast this
    omega
  · exact hfl
  · have h0 : (0 : ℚ) < q - (⌊q⌋ : ℚ) := by linarith [not_lt.mp h1]
    have : (⌊q⌋ : ℚ) < 0 := by linarith
    have : ⌊q⌋ < 0 := by exact_mod_cast this
    omega

/-- C1 (amended): whenever elapsed processing time is at least the configured
refresh interval, the computed `time_to_sleep` is nonpositive — it is *not*
clamped to zero by the code and can be strictly negative — and the effective
sleep is zero only because `asyncio.sleep` returns immediately for
non-positive delays. -/
theorem c1_sleep_nonpositive_when_over_interval
    (refresh_delay elapsed_time_ns : ℤ)
    (h : refresh_delay * 1000000000 ≤ elapsed_time_ns) :
    time_to_sleep refresh_delay elapsed_time_ns ≤ 0 ∧
      effective_sleep refresh_delay elapsed_time_ns = 0 := by
  have hnum : ((refresh_delay * 1000000000 - elapsed_time_ns : ℤ) : ℚ) ≤ 0 := by
    have : refresh_delay * 1000000000 - elapsed_time_ns ≤ 0 := by omega
    exact_mod_cast this
  have hq : ((refresh_delay * 1000000000 - elapsed_time_ns : ℤ) : ℚ) / (1000000000 : ℚ) ≤ 0 :=
    div_nonpos_iff.mpr (Or.inr ⟨hnum, by norm_num⟩)
  have hts : time_to_sleep refresh_delay elapsed_time_ns ≤ 0 := by
    simpa [time_to_sleep] using pyRoundHalfEven_nonpos hq
  exact ⟨hts, by simp [effective_sleep, max_eq_left hts]⟩

/-- C1 witness: with a 1-second refresh interval and 2 seconds of elapsed
processing, the computed sleep is nonpositive and the effective sleep zero. -/
theorem c1_witness :
    time_to_sleep 1 2000000000 ≤ 0 ∧ effective_sleep 1 2000000000 = 0 :=
  c1_sleep_nonpositive_when_over_interval 1 2000000000 (by norm_num)

/-- C1 counterexample: with a 1-second refresh interval and 2 seconds of
elapsed processing, the computed sleep is `-1`, not
`max 0 (refresh_interval - elapsed) = 0`: the computed sleep is negative,
refuting "the computed sleep is exactly zero and is never negative". -/
theorem c1_counterexample :
    time_to_sleep 1 2000000000 = -1 ∧ time_to_sleep 1 2000000000 < 0 := by
  have : time_to_sleep 1 2000000000 = pyRoundHalfEven (-1) := by
    simp only [time_to_sleep]
    norm_num
  rw [this]
  have hfl : ⌊(-1 : ℚ)⌋ = -1 := by norm_num
  unfold pyRoundHalfEven
  rw [hfl]
  norm_num

lemma count_eq_one_unique {α : Type} [DecidableEq α] {l : List α} {a : α}
    (h : l.count a = 1) :
    ∀ i j, l.get? i = some a → l.get? j = some a → i = j := by
  induction l with
  | nil => intro i j hi _; simp at hi
  | cons b t ih =>
    intro i j hi hj
    rw [List.count_cons] at h
    simp only [beq_iff_eq] at h
    cases i with
    | zero =>
      cases j with
      | zero => rfl
      | succ j =>
        simp only [List.get?_cons_zero, Option.some.injEq] at hi
        simp only [List.get?_cons_succ] at hj
        have hmem : a ∈ t := List.get?_mem hj
        have : 0 < t.count a := List.count_pos_iff.mpr hmem
        subst hi
        simp at h
        omega
    | succ i =>
      cases j with
      | zero =>
        simp only [List.get?_cons_zero, Option.some.injEq] at hj
        simp only [List.get?_cons_succ] at hi
        have hmem : a ∈ t := List.get?_mem hi
        have : 0 < t.count a := List.count_pos_iff.mpr hmem
        subst hj
        simp at h
        omega
      | succ j =>
        simp only [List.get?_cons_succ] at hi hj
        by_cases hba : b = a
        · have hcnt : t.count a = 0 := by
            rw [if_pos hba] at h; omega
          have hmem : a ∈ t := List.get?_mem hi
          have : 0 < t.count a := List.count_pos_iff.mpr hmem
          omega
        · have hcnt : t.count a = 1 := by
            rw [if_neg hba] at h; omega
          exact congrArg Nat.succ (ih hcnt i j hi hj)

/-- C7: for every rotation in which the current map's raw name occurs exactly
once and the current map is not the between-matches sentinel, and for every
choice of next map, `guess_current_map_rotation_positions` returns the
singleton list of the unique index of the current map in the rotation. -/
theorem c7_unique_current_position
    (rotation : List Map) (current_map next_map : Map)
    (h1 : current_map.raw_name ≠ BETWEEN_MATCHES_MAP_NAME)
    (h2 : (rotation.map Map.raw_name).count current_map.raw_name = 1) :
    ∃ i, guess_current_map_rotation_positions rotation current_map next_map = [i] ∧
      (rotation.map Map.raw_name).get? i = some current_map.raw_name ∧
      ∀ j, (rotation.map Map.raw_name).get? j = some current_map.raw_name → j = i := by
  have hmem : current_map.raw_name ∈ rotation.map Map.raw_name :=
    List.count_pos_iff.mp (by omega)
  refine ⟨(rotation.map Map.raw_name).indexOf current_map.raw_name, ?_, ?_, ?_⟩
  · simp [guess_current_map_rotation_positions, h1, h2]
  · exact List.indexOf_get? hmem
  · intro j hj
    exact count_eq_one_unique h2 j _ hj (List.indexOf_get? hmem)

/-- C7 witness: in the rotation `[foy_warfare, carentan_warfare]` with
current map `foy_warfare` (occurring once), the inferred current position is
the singleton `[0]`. -/
theorem c7_witness :
    ∃ i, guess_current_map_rotation_positions
        [⟨"foy_warfare"⟩, ⟨"carentan_warfare"⟩] ⟨"foy_warfare"⟩ ⟨"carentan_warfare"⟩ = [i] ∧
      ([⟨"foy_warfare"⟩, ⟨"carentan_warfare"⟩].map Map.raw_name).get? i =
          some (Map.raw_name ⟨"foy_warfare"⟩) ∧
      ∀ j, ([⟨"foy_warfare"⟩, ⟨"carentan_warfare"⟩].map Map.raw_name).get? j =
          some (Map.raw_name ⟨"foy_warfare"⟩) → j = i :=
  c7_unique_current_position _ _ _ (by decide) (by decide)

lemma getD_eq_iff_get?_eq {l : List String} {idx : ℕ} (h : idx < l.length) {x : String} :
    l.getD idx "" = x ↔ l.get? idx = some x := by
  rw [List.getD_eq_get?, List.get?_eq_get h]
  simp

/-- C6: when the current map is not the between-matches sentinel and its raw
name occurs at least twice in the rotation, the inferred current positions
are exactly the set of predecessors (with wrap-around) of the occurrences of
the next map's raw name — every candidate is kept — and the next positions
are the current positions each advanced by one with `len-1` wrapping to 0. -/
theorem c6_ambiguous_positions
    (rotation : List Map) (current_map next_map : Map)
    (h1 : current_map.raw_name ≠ BETWEEN_MATCHES_MAP_NAME)
    (h2 : 2 ≤ (rotation.map Map.raw_name).count current_map.raw_name) :
    (∀ j, j ∈ guess_current_map_rotation_positions rotation current_map next_map ↔
      ((∃ i, 0 < i ∧ i < rotation.length ∧
          (rotation.map Map.raw_name).get? i = some next_map.raw_name ∧ j = i - 1) ∨
        ((rotation.map Map.raw_name).get? 0 = some next_map.raw_name ∧
          j = rotation.length - 1))) ∧
    guess_next_map_rotation_positions
        (guess_current_map_rotation_positions rotation current_map next_map) rotation =
      (guess_current_map_rotation_positions rotation current_map next_map).map
        (fun p => if p = rotation.length - 1 then 0 else p + 1) := by
  constructor
  · intro j
    have hne : ¬((rotation.map Map.raw_name).count current_map.raw_name = 1) := by omega
    simp only [guess_current_map_rotation_positions, if_neg h1, if_neg hne,
      List.mem_map, List.mem_filter, List.mem_range, decide_eq_true_eq,
      List.length_map]
    constructor
    · rintro ⟨idx, ⟨hlt, heq⟩, hj⟩
      have hg : (rotation.map Map.raw_name).get? idx = some next_map.raw_name :=
        (getD_eq_iff_get?_eq (by simpa using hlt)).mp heq
      by_cases h0 : idx = 0
      · subst h0
        right
        refine ⟨hg, ?_⟩
        simpa using hj.symm
      · left
        refine ⟨idx, Nat.pos_of_ne_zero h0, hlt, hg, ?_⟩
        rw [if_neg h0] at hj
        omega
    · rintro (⟨i, hip, hlt, hg, hji⟩ | ⟨hg0, hj⟩)
      · refine ⟨i, ⟨hlt, (getD_eq_iff_get?_eq (by simpa using hlt)).mpr hg⟩, ?_⟩
        rw [if_neg (by omega : ¬ i = 0)]
        omega
      · have hlen : 0 < rotation.length := by
          have := List.get?_mem hg0
          have := List.length_pos.mpr (List.ne_nil_of_mem this)
          simpa using this
        refine ⟨0, ⟨hlen, (getD_eq_iff_get?_eq (by simpa using hlen)).mpr hg0⟩, ?_⟩
        simp [hj]
  · rfl

/-- C6 witness: in the rotation `[foy, carentan, foy, carentan]` with current
map `foy` (twice) and next map `carentan`, the characterization of the
inferred current and next positions holds. -/
theorem c6_witness :
    (∀ j, j ∈ guess_current_map_rotation_positions
        [⟨"foy_warfare"⟩, ⟨"carentan_warfare"⟩, ⟨"foy_warfare"⟩, ⟨"carentan_warfare"⟩]
        ⟨"foy_warfare"⟩ ⟨"carentan_warfare"⟩ ↔
      ((∃ i, 0 < i ∧ i < ([⟨"foy_warfare"⟩, ⟨"carentan_warfare"⟩, ⟨"foy_warfare"⟩,
            ⟨"carentan_warfare"⟩] : List Map).length ∧
          (([⟨"foy_warfare"⟩, ⟨"carentan_warfare"⟩, ⟨"foy_warfare"⟩,
            ⟨"carentan_warfare"⟩] : List Map).map Map.raw_name).get? i =
              some (Map.raw_name ⟨"carentan_warfare"⟩) ∧ j = i - 1) ∨
        ((([⟨"foy_warfare"⟩, ⟨"carentan_warfare"⟩, ⟨"foy_warfare"⟩,
            ⟨"carentan_warfare"⟩] : List Map).map Map.raw_name).get? 0 =
              some (Map.raw_name ⟨"carentan_warfare"⟩) ∧
          j = ([⟨"foy_warfare"⟩, ⟨"carentan_warfare"⟩, ⟨"foy_warfare"⟩,
            ⟨"carentan_warfare"⟩] : List Map).length - 1))) ∧
    guess_next_map_rotation_positions
        (guess_current_map_rotation_positions
          [⟨"foy_warfare"⟩, ⟨"carentan_warfare"⟩, ⟨"foy_warfare"⟩, ⟨"carentan_warfare"⟩]
          ⟨"foy_warfare"⟩ ⟨"carentan_warfare"⟩)
        [⟨"foy_warfare"⟩, ⟨"carentan_warfare"⟩, ⟨"foy_warfare"⟩, ⟨"carentan_warfare"⟩] =
      (guess_current_map_rotation_positions
          [⟨"foy_warfare"⟩, ⟨"carentan_warfare"⟩, ⟨"foy_warfare"⟩, ⟨"carentan_warfare"⟩]
          ⟨"foy_warfare"⟩ ⟨"carentan_warfare"⟩).map
        (fun p => if p = ([⟨"foy_warfare"⟩, ⟨"carentan_warfare"⟩, ⟨"foy_warfare"⟩,
            ⟨"carentan_warfare"⟩] : List Map).length - 1 then 0 else p + 1) :=
  c6_ambiguous_positions _ _ _ (by decide) (by decide)

lemma with_retry_go_keeps_token {V : Type} (env : ℕ → AttemptEnv V) (tok : String) :
    ∀ fuel num, (with_retry_go env (some tok) num fuel).1 = some tok := by
  intro fuel
  induction fuel with
  | zero => intro num; rfl
  | succ k ih =>
    intro num
    simp only [with_retry_go, with_login_attempt]
    cases hapi : run_get_api_result (env num).api with
    | ok v => rfl
    | error e =>
      simp only []
      by_cases hc : with_retry_catches e
      · simp [hc]
        exact ih (num + 1)
      · simp [hc]

/-- C3 (amended): for every sequence of attempt outcomes — retryable HTTP
errors of any status (401 included), empty results, index errors — a stored
session token is never cleared: no code path removes a stored `sessionid`
cookie, and re-authentication happens only when no cookie is stored at all,
so after a 401-class response the next attempt reuses the same token. -/
theorem c3_token_never_cleared {V : Type} (env : ℕ → AttemptEnv V)
    (cookies : Option String) (tok : String) (h : cookies = some tok) :
    (get_api_result env cookies).1 = some tok := by
  subst h
  exact with_retry_go_keeps_token env tok 5 1

/-- C3 witness: a stored token survives a run of five 401 responses. -/
theorem c3_witness :
    (get_api_result (V := Unit)
        (fun _ => ⟨LoginOutcome.ok "fresh", ApiOutcome.httpStatus 401⟩)
        (some "stale")).1 = some "stale" :=
  c3_token_never_cleared _ _ "stale" rfl

/-- C3 counterexample: a 401-class response does *not* clear the stored
token, and the next attempt does *not* re-authenticate: after five 401s the
stored cookie is unchanged, and a single attempt with a stored stale cookie
performs no login (the available fresh login outcome is ignored) and fails
with the 401 — refuting "an AuthError/401-class response clears the stored
token so that the next call performs re-authentication". -/
theorem c3_counterexample :
    get_api_result (V := Unit)
        (fun _ => ⟨LoginOutcome.ok "fresh", ApiOutcome.httpStatus 401⟩)
        (some "stale") = (some "stale", .ok none) ∧
    with_login_attempt (V := Unit) (some "stale")
        ⟨LoginOutcome.ok "fresh", ApiOutcome.httpStatus 401⟩ =
      (some "stale", .error (.clientResponseError 401)) := by
  exact ⟨rfl, rfl⟩

lemma with_retry_go_step {V : Type} (env : ℕ → AttemptEnv V) (tok : String)
    (num fuel : ℕ) (h : (env num).api.retryableFailure = true) :
    with_retry_go env (some tok) num (fuel + 1) =
      with_retry_go env (some tok) (num + 1) fuel := by
  simp only [with_retry_go, with_login_attempt]
  cases hapi : (env num).api <;>
    simp [ApiOutcome.retryableFailure, hapi] at h ⊢ <;>
    simp [run_get_api_result, with_retry_catches]

lemma with_retry_go_ok {V : Type} (env : ℕ → AttemptEnv V) (tok : String)
    (num fuel : ℕ) (v : V) (h : (env num).api = .ok v) :
    with_retry_go env (some tok) num (fuel + 1) = (some tok, .ok (some v)) := by
  simp [with_retry_go, with_login_attempt, h, run_get_api_result]

/-- C4: the retry wrapper makes at most 5 attempts, retrying on HTTP-error,
empty-result and IndexError-class failures: if the first 4 attempts fail
retryably and the 5th succeeds with `v`, the wrapper returns `v`; if all 5
attempts fail retryably, the wrapper returns no result (`None`) and raises
nothing past the wrapper boundary. -/
theorem c4_retry_policy {V : Type} (env1 env2 : ℕ → AttemptEnv V)
    (tok : String) (v : V)
    (h14 : ∀ i, 1 ≤ i → i ≤ 4 → (env1 i).api.retryableFailure = true)
    (h5 : (env1 5).api = ApiOutcome.ok v)
    (hall : ∀ i, 1 ≤ i → i ≤ 5 → (env2 i).api.retryableFailure = true) :
    (get_api_result env1 (some tok)).2 = .ok (some v) ∧
      (get_api_result env2 (some tok)).2 = .ok none := by
  constructor
  · show (with_retry_go env1 (some tok) 1 5).2 = _
    rw [with_retry_go_step env1 tok 1 4 (h14 1 (by norm_num) (by norm_num)),
      with_retry_go_step env1 tok 2 3 (h14 2 (by norm_num) (by norm_num)),
      with_retry_go_step env1 tok 3 2 (h14 3 (by norm_num) (by norm_num)),
      with_retry_go_step env1 tok 4 1 (h14 4 (by norm_num) (by norm_num)),
      with_retry_go_ok env1 tok 5 0 v h5]
  · show (with_retry_go env2 (some tok) 1 5).2 = _
    rw [with_retry_go_step env2 tok 1 4 (hall 1 (by norm_num) (by norm_num)),
      with_retry_go_step env2 tok 2 3 (hall 2 (by norm_num) (by norm_num)),
      with_retry_go_step env2 tok 3 2 (hall 3 (by norm_num) (by norm_num)),
      with_retry_go_step env2 tok 4 1 (hall 4 (by norm_num) (by norm_num)),
      with_retry_go_step env2 tok 5 0 (hall 5 (by norm_num) (by norm_num))]
    rfl

/-- C4 witness: four empty results followed by a success return the success
value; five straight HTTP 500s return `None` without raising. -/
theorem c4_witness :
    (get_api_result
        (fun i => if i = 5 then (⟨LoginOutcome.ok "t", ApiOutcome.ok (42 : Int)⟩ :
            AttemptEnv Int)
          else ⟨LoginOutcome.ok "t", ApiOutcome.nullResult⟩)
        (some "tok")).2 = .ok (some 42) ∧
      (get_api_result
          (fun _ => (⟨LoginOutcome.ok "t", ApiOutcome.httpStatus 500⟩ : AttemptEnv Int))
          (some "tok")).2 = .ok none :=
  c4_retry_policy _ _ "tok" 42
    (by
      intro i h1 h2
      simp [show i ≠ 5 by omega, ApiOutcome.retryableFailure])
    (by simp)
    (by
      intro i h1 h2
      simp [ApiOutcome.retryableFailure])

/-- C2 (amended): a scheduler cycle running `build_header` completes without
raising exactly when the API client eventually returns a value within its
retry budget; in every other case — retries exhausted (yielding `None`,
which the parser then subscripts, raising `TypeError`) or a non-retryable
transport error — the exception escapes the cycle, which has no handler, and
terminates the owning task. -/
theorem c2_cycle_ok_iff (cookies : Option String) (message_id : Option Int)
    (env : ℕ → AttemptEnv ServerName) (wh : WebhookBehavior) :
    (∃ p, update_hook_cycle cookies message_id env wh = .ok p) ↔
      ∃ v, (get_api_result env cookies).2 = .ok (some v) := by
  unfold update_hook_cycle build_header
  cases hres : get_api_result env cookies with
  | mk c1 r =>
    cases r with
    | error e => simp
    | ok res =>
      cases res with
      | none => simp [parse_server_name]
      | some sn => simp [parse_server_name]

/-- C2 counterexample: with every attempt returning an empty result the
retry budget is exhausted, the builder's parse of the missing result raises
`TypeError`, and the cycle ends in an escaping exception — and a single
transport-level error escapes at once — refuting "no exception escapes to
terminate the owning task" and "the cycle is skipped rather than raising". -/
theorem c2_counterexample :
    update_hook_cycle (some "tok") (some 1)
        (fun _ => ⟨LoginOutcome.ok "t", ApiOutcome.nullResult⟩) (.ok 7) =
      .error .typeError ∧
    update_hook_cycle (some "tok") (some 1)
        (fun _ => ⟨LoginOutcome.ok "t", ApiOutcome.transportError⟩) (.ok 7) =
      .error .otherError := by
  exact ⟨rfl, rfl⟩

/-- C9 (amended): when an edit finds its message handle gone (`NotFound`),
`handle_webhook` logs, discards the handle and returns `None` — it does
*not* create a message in the same invocation, so the cycle's content is not
published this cycle; the *next* cycle, holding no handle, publishes via a
create. -/
theorem c9_not_found_discards_handle (m : Int) (hm : m ≠ 0) :
    handle_webhook (some m) .notFound = ([.editMessage m], none) ∧
      (∀ wh : WebhookBehavior, (handle_webhook none wh).1 = [.send]) := by
  constructor
  · simp [handle_webhook, hm]
  · intro wh
    cases wh <;> rfl

/-- C9 witness: editing handle 42 against a not-found endpoint performs only
the edit attempt and returns no handle; a handle-less publish is a create. -/
theorem c9_witness :
    handle_webhook (some 42) .notFound = ([.editMessage 42], none) ∧
      (∀ wh : WebhookBehavior, (handle_webhook none wh).1 = [.send]) :=
  c9_not_found_discards_handle 42 (by norm_num)

/-- C9 counterexample: when the endpoint reports the handle gone, the
invocation performs no create (`send` is not among its endpoint calls) and
publishes nothing, refuting "falls through to creating a new message, so the
cycle's content is published via a create instead of the failed edit". -/
theorem c9_counterexample :
    (handle_webhook (some 42) .notFound).2 = none ∧
      WebhookAction.send ∉ (handle_webhook (some 42) .notFound).1 := by
  constructor
  · rfl
  · decide

/-- C5 (amended): constructing a `types.Map` (the rewritten validator in
`types.py`) never fails — every raw name is mapped to the sentinel, a known
name, its first underscore segment, or `"Unknown Map"` — and its display
name is the lookup-table entry when one exists, else the raw name itself.
The `models.Map` that `cli.py` imports, however, succeeds only on
`Untitled_\d+` or a raw name present in the known-map table: an unknown map
name from a new game release raises `ValueError`. -/
theorem c5_map_construction (v : String) :
    ((∃ s, models_must_be_valid_map_name v = .ok s) ↔
      (untitledMatch v = true ∨ v ∈ ALL_MAPS)) ∧
    types_map_name (types_must_be_valid_map_name v) =
      ((dict_get LONG_HUMAN_MAP_NAMES (types_must_be_valid_map_name v)).getD
        (types_must_be_valid_map_name v)) := by
  constructor
  · unfold models_must_be_valid_map_name
    by_cases hu : untitledMatch v
    · simp [hu]
    · by_cases hm : v ∈ ALL_MAPS <;> simp [hu, hm]
  · unfold types_map_name
    cases dict_get LONG_HUMAN_MAP_NAMES (types_must_be_valid_map_name v) <;> simp

/-- C5 counterexample: the raw name `brandnewmap_warfare` is not in the map
table; `models.Map` (the class `cli.py` uses) fails to construct, raising
`ValueError` — refuting "constructing a Map succeeds for every raw_name".
(`types.Map` falls back to the first underscore segment instead.) -/
theorem c5_counterexample :
    models_must_be_valid_map_name "brandnewmap_warfare" = .error .valueError ∧
      types_must_be_valid_map_name "brandnewmap_warfare" = "brandnewmap" := by
  constructor
  · rfl
  · rfl

lemma match_time_remaining_take7 (s : String) :
    match_time_remaining s = match_time_remaining ⟨s.data.take 7⟩ := by
  obtain ⟨l⟩ := s
  match l with
  | [] => rfl
  | [_] => rfl
  | [_, _] => rfl
  | [_, _, _] => rfl
  | [_, _, _, _] => rfl
  | [_, _, _, _, _] => rfl
  | [_, _, _, _, _, _] => rfl
  | _ :: _ :: _ :: _ :: _ :: _ :: _ :: _ => rfl

/-- C8 (amended): `parse_gamestate` fails exactly when `raw_time_remaining`
does not *begin* with `H:MM:SS` or one of the two map names fails `models.Map`
validation; the regex is matched with `re.match`, anchored at the start only,
so only the first seven characters are inspected and trailing characters are
ignored; every accepted string's first seven characters are converted to the
corresponding duration. -/
theorem c8_time_format (r : RawGameState) :
    ((∃ g, parse_gamestate r = .ok g) ↔
      ((match_time_remaining r.raw_time_remaining).isSome ∧
        (∃ s, models_must_be_valid_map_name r.current_map = .ok s) ∧
        (∃ s, models_must_be_valid_map_name r.next_map = .ok s))) ∧
    match_time_remaining r.raw_time_remaining =
      match_time_remaining ⟨r.raw_time_remaining.data.take 7⟩ ∧
    (∀ h m s g, match_time_remaining r.raw_time_remaining = some (h, m, s) →
      parse_gamestate r = .ok g →
      g.time_remaining_seconds = 3600 * h + 60 * m + s) := by
  refine ⟨?_, match_time_remaining_take7 _, ?_⟩
  · unfold parse_gamestate
    cases hmt : match_time_remaining r.raw_time_remaining with
    | none => simp
    | some hms =>
      obtain ⟨hh, mm, ss⟩ := hms
      cases hcur : models_must_be_valid_map_name r.current_map with
      | error e => simp
      | ok cur =>
        cases hnext : models_must_be_valid_map_name r.next_map with
        | error e => simp
        | ok next => simp
  · intro h m s g hmt hok
    unfold parse_gamestate at hok
    rw [hmt] at hok
    cases hcur : models_must_be_valid_map_name r.current_map with
    | error e => rw [hcur] at hok; cases hok
    | ok cur =>
      rw [hcur] at hok
      cases hnext : models_must_be_valid_map_name r.next_map with
      | error e => rw [hnext] at hok; cases hok
      | ok next =>
        rw [hnext] at hok
        cases hok
        rfl

/-- C8 witness: `"1:23:45"` with known maps parses to 1h 23m 45s. -/
theorem c8_witness :
    GameState.time_remaining_seconds
        { num_allied_players := 10, num_axis_players := 10, allied_score := 2,
          axis_score := 3, raw_time_remaining := "1:23:45",
          time_remaining_seconds := 5025, current_map := "foy_warfare",
          next_map := "carentan_warfare" } = 3600 * 1 + 60 * 23 + 45 :=
  (c8_time_format
      { num_allied_players := 10, num_axis_players := 10, allied_score := 2,
        axis_score := 3, raw_time_remaining := "1:23:45",
        current_map := "foy_warfare", next_map := "carentan_warfare" }).2.2
    1 23 45 _ rfl rfl

/-- C8 counterexample: `"1:23:45Z"` does not fully match `H:MM:SS` ("and
nothing else"), yet `parse_gamestate` accepts it — `re.match` anchors only
at the start — refuting "fails if and only if the string does not match the
exact format ... and nothing else". -/
theorem c8_counterexample :
    parse_gamestate
        { num_allied_players := 0, num_axis_players := 0, allied_score := 0,
          axis_score := 0, raw_time_remaining := "1:23:45Z",
          current_map := "foy_warfare", next_map := "carentan_warfare" } =
      .ok { num_allied_players := 0, num_axis_players := 0, allied_score := 0,
            axis_score := 0, raw_time_remaining := "1:23:45Z",
            time_remaining_seconds := 5025, current_map := "foy_warfare",
            next_map := "carentan_warfare" } ∧
      full_match_hmmss "1:23:45Z" = false := by
  exact ⟨rfl, rfl⟩

lemma dict_get_append_left {β : Type} {l₁ l₂ : List (String × β)} {f : String}
    {v : β} (h : dict_get l₁ f = some v) : dict_get (l₁ ++ l₂) f = some v := by
  induction l₁ with
  | nil => simp [dict_get] at h
  | cons p t ih =>
    obtain ⟨k, w⟩ := p
    by_cases hk : k = f
    · simp only [dict_get, if_pos hk] at h
      simp [dict_get, hk, h]
    · simp only [dict_get, if_neg hk] at h
      simpa [dict_get, hk] using ih h

lemma dict_get_append_right {β : Type} {l₁ l₂ : List (String × β)} {f : String}
    (h : dict_get l₁ f = none) : dict_get (l₁ ++ l₂) f = dict_get l₂ f := by
  induction l₁ with
  | nil => simp
  | cons p t ih =>
    obtain ⟨k, w⟩ := p
    by_cases hk : k = f
    · simp [dict_get, hk] at h
    · simp only [dict_get, if_neg hk] at h
      simpa [dict_get, hk] using ih h

lemma dict_get_append_single_ne {β : Type} {l : List (String × β)} {g f : String}
    {w : β} (hgf : g ≠ f) : dict_get (l ++ [(g, w)]) f = dict_get l f := by
  cases h : dict_get l f with
  | some v => exact dict_get_append_left h
  | none => rw [dict_get_append_right h]; simp [dict_get, hgf]

lemma validate_fields_preserves {fields : List String} {table : MessageIdTable}
    {cf : List String} {dv : Int} {f : String} {v : Int}
    (h : dict_get table f = some v) :
    dict_get (validate_fields table fields cf dv).1 f = some v := by
  induction fields generalizing table with
  | nil => simpa [validate_fields] using h
  | cons g rest ih =>
    simp only [validate_fields]
    by_cases hg : (dict_get table g).isSome = true
    · simp only [hg, if_true]
      exact ih h
    · simp only [hg, if_false, Bool.false_eq_true]
      exact ih (dict_get_append_left h)

lemma validate_fields_present {fields : List String} {table : MessageIdTable}
    {cf : List String} {dv : Int} {f : String} (hf : f ∈ fields) :
    (dict_get (validate_fields table fields cf dv).1 f).isSome = true := by
  induction fields generalizing table with
  | nil => cases hf
  | cons g rest ih =>
    simp only [validate_fields]
    rcases List.mem_cons.mp hf with hfg | hfr
    · subst hfg
      by_cases hg : (dict_get table f).isSome = true
      · simp only [hg, if_true]
        obtain ⟨v, hv⟩ := Option.isSome_iff_exists.mp hg
        rw [validate_fields_preserves hv]
        rfl
      · simp only [hg, if_false, Bool.false_eq_true]
        have hnone : dict_get table f = none := by
          cases hdg : dict_get table f with
          | none => rfl
          | some v => rw [hdg] at hg; simp at hg
        have hone : dict_get (table ++ [(f, dv)]) f = some dv := by
          rw [dict_get_append_right hnone]
          simp [dict_get]
        rw [validate_fields_preserves hone]
        rfl
    · by_cases hg : (dict_get table g).isSome = true
      · simp only [hg, if_true]
        exact ih hfr
      · simp only [hg, if_false, Bool.false_eq_true]
        exact ih hfr

lemma validate_fields_default {fields : List String} {table : MessageIdTable}
    {cf : List String} {dv : Int} {f : String} (hf : f ∈ fields)
    (hnone : dict_get table f = none) :
    dict_get (validate_fields table fields cf dv).1 f = some dv := by
  induction fields generalizing table with
  | nil => cases hf
  | cons g rest ih =>
    simp only [validate_fields]
    by_cases hgf : g = f
    · subst hgf
      have hg : ¬((dict_get table g).isSome = true) := by simp [hnone]
      simp only [if_neg hg]
      have hone : dict_get (table ++ [(g, dv)]) g = some dv := by
        rw [dict_get_append_right hnone]
        simp [dict_get]
      exact validate_fields_preserves hone
    · have hfr : f ∈ rest := by
        rcases List.mem_cons.mp hf with h1 | h2
        · exact absurd h1.symm hgf
        · exact h2
      by_cases hg : (dict_get table g).isSome = true
      · simp only [hg, if_true]
        exact ih hfr hnone
      · simp only [hg, if_false, Bool.false_eq_true]
        have hnone1 : dict_get (table ++ [(g, dv)]) f = none := by
          rw [dict_get_append_single_ne hgf]
          exact hnone
        exact ih hfr hnone1

lemma validate_fields_warn_count (fields : List String) (table : MessageIdTable)
    (cf : List String) (dv : Int) (f : String) :
    (validate_fields table fields cf dv).2.count (ValidationLog.warnMissingField f) =
      if f ∈ fields ∧ dict_get table f = none then 1 else 0 := by
  induction fields generalizing table with
  | nil => simp [validate_fields]
  | cons g rest ih =>
    simp only [validate_fields]
    rw [List.count_append, List.count_append]
    have hlogs2 : (if g ∈ cf then ([] : List ValidationLog)
        else [ValidationLog.errUnknownField g]).count
          (ValidationLog.warnMissingField f) = 0 := by
      split <;> simp [List.count_cons]
    by_cases hg : (dict_get table g).isSome = true
    · simp only [hg, if_true, List.count_nil, hlogs2]
      rw [ih table]
      obtain ⟨w, hw⟩ := Option.isSome_iff_exists.mp hg
      by_cases hfg : f = g
      · subst hfg
        simp [hw]
      · have : f ∈ g :: rest ↔ f ∈ rest := by simp [List.mem_cons, hfg]
        simp [this]
    · have hnone : dict_get table g = none := by
        cases hdg : dict_get table g with
        | none => rfl
        | some w => rw [hdg] at hg; simp at hg
      simp only [hg, if_false, Bool.false_eq_true, hlogs2]
      rw [ih (table ++ [(g, dv)])]
      by_cases hfg : f = g
      · subst hfg
        have hone : dict_get (table ++ [(f, dv)]) f = some dv := by
          rw [dict_get_append_right hnone]
          simp [dict_get]
        simp [List.count_cons, hone, hnone]
      · have hng : ValidationLog.warnMissingField g ≠ ValidationLog.warnMissingField f := by
          intro hc
          exact hfg (ValidationLog.warnMissingField.inj hc).symm
        have hsame : dict_get (table ++ [(g, dv)]) f = dict_get table f :=
          dict_get_append_single_ne (fun hc => hfg hc.symm)
        have hmem : f ∈ g :: rest ↔ f ∈ rest := by simp [List.mem_cons, hfg]
        simp [List.count_cons, hng, hsame, hmem]

lemma dict_get_set_table (d : MessageIdDocument) (tn : String)
    (t2 : MessageIdTable) :
    dict_get (set_table d tn t2) tn = (dict_get d tn).map (fun _ => t2) := by
  induction d with
  | nil => rfl
  | cons p rest ih =>
    obtain ⟨k, v⟩ := p
    by_cases hk : k = tn
    · subst hk
      simp only [set_table]
      simp [dict_get]
    · simp only [set_table]
      rw [if_neg hk]
      simpa [dict_get, hk] using ih

/-- C10: for every input document — a missing one included — validation
returns a document whose section table contains every required field, with
each field missing in the input set to the sentinel value, every field
already present left unchanged, and exactly one missing-field warning logged
per missing field. -/
theorem c10_message_ids_validated (message_ids : Option MessageIdDocument)
    (format : MessageIDFormat) (default_value : Int) :
    ∃ final_table : MessageIdTable,
      dict_get (validate_message_ids_format message_ids format default_value).1
          format.table_name = some final_table ∧
      (∀ f ∈ format.fields, (dict_get final_table f).isSome = true) ∧
      (∀ f ∈ format.fields, dict_get (input_table message_ids format) f = none →
        dict_get final_table f = some default_value) ∧
      (∀ f v, dict_get (input_table message_ids format) f = some v →
        dict_get final_table f = some v) ∧
      (∀ f ∈ format.fields,
        (validate_message_ids_format message_ids format default_value).2.count
            (ValidationLog.warnMissingField f) =
          if dict_get (input_table message_ids format) f = none then 1 else 0) := by
  refine ⟨(validate_fields (input_table message_ids format) format.fields
      MESSAGE_ID_FORMAT.fields default_value).1, ?_, ?_, ?_, ?_, ?_⟩
  · simp only [validate_message_ids_format, input_table]
    cases hdoc : dict_get (message_ids.getD []) format.table_name with
    | some t =>
      simp [dict_get_set_table, hdoc]
    | none =>
      simp [dict_get_set_table, hdoc, dict_get_append_right hdoc, dict_get]
  · intro f hf
    exact validate_fields_present hf
  · intro f hf hnone
    exact validate_fields_default hf hnone
  · intro f v hv
    exact validate_fields_preserves hv
  · intro f hf
    simp only [validate_message_ids_format, input_table]
    rw [List.count_append, List.count_append]
    have hlogs0 : (match message_ids with
        | none => [ValidationLog.warnNoDocument]
        | some _ => ([] : List ValidationLog)).count
          (ValidationLog.warnMissingField f) = 0 := by
      cases message_ids <;> simp [List.count_cons]
    have hlogs1 : (match dict_get (message_ids.getD []) format.table_name with
        | some _ => ([] : List ValidationLog)
        | none => [ValidationLog.warnMissingTable format.table_name]).count
          (ValidationLog.warnMissingField f) = 0 := by
      cases dict_get (message_ids.getD []) format.table_name <;>
        simp [List.count_cons]
    rw [hlogs0, hlogs1, validate_fields_warn_count]
    simp [hf]

/-- C10 witness: a document whose table holds only `header` is completed
with the three missing section keys at the sentinel, `header` kept, and one
warning per missing key. -/
theorem c10_witness :
    ∃ final_table : MessageIdTable,
      dict_get (validate_message_ids_format
            (some [("message_ids", [("header", 5)])]) MESSAGE_ID_FORMAT
            NONE_MESSAGE_ID).1
          MESSAGE_ID_FORMAT.table_name = some final_table ∧
      (∀ f ∈ MESSAGE_ID_FORMAT.fields, (dict_get final_table f).isSome = true) ∧
      (∀ f ∈ MESSAGE_ID_FORMAT.fields,
        dict_get (input_table (some [("message_ids", [("header", 5)])])
            MESSAGE_ID_FORMAT) f = none →
        dict_get final_table f = some NONE_MESSAGE_ID) ∧
      (∀ f v, dict_get (input_table (some [("message_ids", [("header", 5)])])
            MESSAGE_ID_FORMAT) f = some v →
        dict_get final_table f = some v) ∧
      (∀ f ∈ MESSAGE_ID_FORMAT.fields,
        (validate_message_ids_format (some [("message_ids", [("header", 5)])])
            MESSAGE_ID_FORMAT NONE_MESSAGE_ID).2.count
            (ValidationLog.warnMissingField f) =
          if dict_get (input_table (some [("message_ids", [("header", 5)])])
              MESSAGE_ID_FORMAT) f = none then 1 else 0) :=
  c10_message_ids_validated (some [("message_ids", [("header", 5)])])
    MESSAGE_ID_FORMAT NONE_MESSAGE_ID

end HllServerStatus
